import Mathlib

/-!
# CoffeeTalk API — shallow embedding and verification

This file embeds the core of the CoffeeTalk recipe-sharing REST API
(an Express + MongoDB application) in Lean 4 and proves properties of
the embedded code: the recipe listing endpoint (query criteria building,
validation, pagination, sorting, projection), the recipe populator, the
review/rating aggregator, the ownership verifier, the favorites manager,
and the recipe delete cascade.

Conventions of the embedding:
* MongoDB ObjectIds are modelled as their canonical string form.
* JavaScript numbers are modelled as exact rationals; where the source
  performs a floating-point division whose rounding is observable
  (the average-rating computation), the IEEE-754 binary64 rounding of the
  quotient is modelled exactly on rationals (`jsDouble`).  Integer
  arithmetic on JavaScript numbers is exact below 2^53 and is modelled
  as exact integer arithmetic.
* Each route handler is a pure function from the database value and the
  request data to a response together with the list of storage operations
  it issued, in order.  The database resulting from a handler is obtained
  by folding the storage operations over the initial database; read
  operations leave the database unchanged.  A handler response of `none`
  models a JavaScript exception escaping the handler (no response sent).
* `Date.now`, driver-generated ObjectIds and bcrypt salts are passed as
  explicit parameters (they are the only sources of nondeterminism).
-/

namespace CoffeeTalk

/-! ## Character classes and string helpers (JS primitives) -/

def isDigitCh (c : Char) : Bool := '0' ≤ c && c ≤ '9'

def isHexCh (c : Char) : Bool :=
  isDigitCh c || ('a' ≤ c && c ≤ 'f') || ('A' ≤ c && c ≤ 'F')

/-- JavaScript regex `\w`: ASCII letters, digits and underscore. -/
def isWordCh (c : Char) : Bool :=
  isDigitCh c || ('a' ≤ c && c ≤ 'z') || ('A' ≤ c && c ≤ 'Z') || c = '_'

def isSpaceCh (c : Char) : Bool :=
  c = ' ' || c = '\t' || c = '\n' || c = '\r'

/-- Trim leading and trailing whitespace from a character list. -/
def trimCh (l : List Char) : List Char :=
  ((l.dropWhile isSpaceCh).reverse.dropWhile isSpaceCh).reverse

/-- Split a character list at a separator character (like `String.split`). -/
def splitCh (sep : Char) : List Char → List (List Char)
  | [] => [[]]
  | c :: rest =>
    let r := splitCh sep rest
    if c = sep then [] :: r
    else
      match r with
      | [] => [[c]]
      | h :: t => (c :: h) :: t

def digitsVal (l : List Char) : Nat :=
  l.foldl (fun acc c => acc * 10 + (c.toNat - '0'.toNat)) 0

/-- `parseInt` on a JavaScript string: trim, optional sign, leading decimal
digits; `none` models `NaN`. -/
def jsParseInt (s : String) : Option Int :=
  let l := trimCh s.data
  let (sign, l) : Int × List Char :=
    match l with
    | '-' :: rest => (-1, rest)
    | '+' :: rest => (1, rest)
    | _ => (1, l)
  let ds := l.takeWhile isDigitCh
  if ds = [] then none else some (sign * (digitsVal ds : Int))

/-- `Number(...)` conversion of a JavaScript string (decimal forms only:
optional sign, digits, optional fractional part).  The empty (or
all-whitespace) string converts to `0`; `none` models `NaN`. -/
def jsNumber (s : String) : Option ℚ :=
  let l := trimCh s.data
  if l = [] then some 0
  else
    let (sign, l) : Int × List Char :=
      match l with
      | '-' :: rest => (-1, rest)
      | '+' :: rest => (1, rest)
      | _ => (1, l)
    let intPart := l.takeWhile isDigitCh
    let rest := l.drop intPart.length
    match rest with
    | [] =>
      if intPart = [] then none
      else some (Rat.divInt (sign * (digitsVal intPart : Int)) 1)
    | '.' :: fracRest =>
      let fracPart := fracRest.takeWhile isDigitCh
      if fracRest.drop fracPart.length ≠ [] then none
      else if intPart = [] && fracPart = [] then none
      else
        some (Rat.divInt
          (sign * ((digitsVal intPart : Int) * 10 ^ fracPart.length +
            (digitsVal fracPart : Int)))
          (10 ^ fracPart.length : Int))
    | _ => none

/-- Case-insensitive substring test, modelling the `$regex`/`$options: 'i'`
name filter for plain (metacharacter-free) patterns. -/
def containsCI (pat s : String) : Bool :=
  let p := pat.data.map Char.toLower
  let t := s.data.map Char.toLower
  (List.range (t.length + 1)).any (fun i => (t.drop i).take p.length = p)

/-! ## ObjectId model

`ObjectId(s)` accepts a 24-character hexadecimal string (normalised to
lower case) or an arbitrary 12-character string, and throws otherwise;
`ObjectId.isValid` tests the same condition. -/

/-- Identifiers are the canonical string form of a MongoDB ObjectId. -/
abbrev Id := String

def isValidObjectId (s : String) : Bool :=
  s.data.length = 12 || (s.data.length = 24 && s.data.all isHexCh)

/-- `ObjectId(s)`: `none` models the constructor throwing. -/
def mkObjectId (s : String) : Option Id :=
  if s.data.length = 24 && s.data.all isHexCh then
    some (String.mk (s.data.map Char.toLower))
  else if s.data.length = 12 then some s
  else none

/-! ## Email validation

Models the source regex `^[\w-\.]+@([\w-]+\.)+[\w-]{2,4}$` (case
insensitive; `\w` is already case insensitive). -/

def isLocalCh (c : Char) : Bool := isWordCh c || c = '-' || c = '.'

def isDomCh (c : Char) : Bool := isWordCh c || c = '-'

def validateEmail (email : String) : Bool :=
  match splitCh '@' email.data with
  | [localPart, domain] =>
    let dparts := splitCh '.' domain
    localPart ≠ [] && localPart.all isLocalCh &&
    dparts.length ≥ 2 &&
    dparts.dropLast.all (fun p => p ≠ [] && p.all isDomCh) &&
    (match dparts.getLast? with
     | some lastPart =>
       2 ≤ lastPart.length && lastPart.length ≤ 4 && lastPart.all isDomCh
     | none => false)
  | _ => false

/-! ## One-way hash primitive (bcrypt)

Modelled from the spec: the bcrypt library behind `BcryptUtil.hash` /
`BcryptUtil.compareHash` is an external collaborator (§6): a one-way hash
with a random per-call salt, so hashing the same plaintext twice yields
different hash values, and a `compare` primitive that returns a boolean
(a mismatch is a normal `false`, not an error).  The salt is an explicit
parameter modelling the randomness; one-wayness is irrelevant to the
stated properties and is not modelled. -/

structure HashV where
  salt : Nat
  text : String
  deriving DecidableEq, Repr

/-- `BcryptUtil.hash(plainText)` with the random salt made explicit. -/
def bcryptHash (salt : Nat) (plainText : String) : HashV :=
  ⟨salt, plainText⟩

/-- `BcryptUtil.compareHash(plainText, hash)`: total boolean result. -/
def compareHash (plainText : String) (h : HashV) : Bool :=
  h.text = plainText

/-! ## Data model (documents of the five collections) -/

/-- A flat reference document (bean / grinder / brewer / method):
identifier plus descriptive fields. -/
structure RefDoc where
  rid : Id
  fields : List (String × String)
  deriving DecidableEq, Repr

structure Review where
  revId : Id
  date : Nat
  title : String
  content : String
  rating : Int
  username : String
  email : HashV
  deriving DecidableEq, Repr

structure RecipeUser where
  username : String
  email : HashV
  deriving DecidableEq, Repr

structure Recipe where
  rid : Id
  image_url : String
  recipe_name : String
  description : String
  average_rating : ℚ
  user : RecipeUser
  date : Nat
  total_brew_time : String
  brew_yield : String
  brewing_method : Id
  coffee_beans : List Id
  coffee_rest_period : String
  amount_of_coffee : ℚ
  grinder : Option Id
  grind_setting : String
  amount_of_water : String
  water_temperature : ℚ
  additional_ingredients : List String
  brewer : Id
  additional_equipment : List String
  steps : List String
  reviews : List Review
  deriving DecidableEq, Repr

structure Favorite where
  fid : Id
  user_email : String
  coffee_recipes : List Id
  deriving DecidableEq, Repr

structure Db where
  recipes : List Recipe
  favorites : List Favorite
  beans : List RefDoc
  grinders : List RefDoc
  brewers : List RefDoc
  methods : List RefDoc
  deriving DecidableEq, Repr

/-- `findOne` on a collection of reference documents: first match. -/
def findRef (l : List RefDoc) (i : Id) : Option RefDoc :=
  l.find? (fun d => d.rid = i)

def findRecipe (db : Db) (i : Id) : Option Recipe :=
  db.recipes.find? (fun r => r.rid = i)

def findFavByEmail (db : Db) (e : String) : Option Favorite :=
  db.favorites.find? (fun f => f.user_email = e)

/-! ## Storage operations

Each constructor is one MongoDB operation, the unit of atomicity of the
storage layer.  `applyDbEvent` gives the state transition of each
operation; read operations do not change the database. -/

inductive DbEvent where
  | findBean (i : Id)
  | findGrinder (i : Id)
  | findBrewer (i : Id)
  | findMethod (i : Id)
  | findRecipeById (i : Id)
  | findRecipeRatings (i : Id)
  | countRecipes
  | queryRecipes
  | findFavorite (e : String)
  | findFavoriteWith (fid : Id) (rid : Id)
  | findFavoriteElem (e : String) (rid : Id)
  | insertFavorite (f : Favorite)
  | pushFavorite (fid : Id) (rid : Id)
  | pullFavorite (e : String) (rid : Id)
  | pullFavoriteAll (rid : Id)
  | deleteRecipeOne (rid : Id)
  | pushReviewSetAvg (rid : Id) (rev : Review) (avg : ℚ)
  deriving DecidableEq, Repr

/-- Remove the first element satisfying `p` (MongoDB `deleteOne`). -/
def eraseFirstBy (p : α → Bool) : List α → List α
  | [] => []
  | x :: xs => if p x then xs else x :: eraseFirstBy p xs

/-- Update the first element satisfying `p` (MongoDB `updateOne`). -/
def updateFirstBy (p : α → Bool) (f : α → α) : List α → List α
  | [] => []
  | x :: xs => if p x then f x :: xs else x :: updateFirstBy p f xs

/-- `$pull` of a recipe id from a favorites record (removes all copies). -/
def pullRecipe (rid : Id) (f : Favorite) : Favorite :=
  { f with coffee_recipes := f.coffee_recipes.filter (fun x => ¬ x = rid) }

def applyDbEvent (db : Db) : DbEvent → Db
  | .findBean _ | .findGrinder _ | .findBrewer _ | .findMethod _
  | .findRecipeById _ | .findRecipeRatings _ | .countRecipes
  | .queryRecipes | .findFavorite _ | .findFavoriteWith _ _
  | .findFavoriteElem _ _ => db
  | .insertFavorite f => { db with favorites := db.favorites ++ [f] }
  | .pushFavorite fid rid =>
    { db with favorites :=
        (updateFirstBy (fun f => f.fid = fid)
          (fun f => { f with coffee_recipes := f.coffee_recipes ++ [rid] })
          db.favorites) }
  | .pullFavorite e rid =>
    { db with favorites :=
        (updateFirstBy
          (fun f => f.user_email = e && f.coffee_recipes.contains rid)
          (pullRecipe rid) db.favorites) }
  | .pullFavoriteAll rid =>
    -- `updateMany` with filter `coffee_recipes ∋ rid`: records not
    -- containing `rid` are unchanged by the pull, so this is a map.
    { db with favorites := db.favorites.map (pullRecipe rid) }
  | .deleteRecipeOne rid =>
    { db with recipes := eraseFirstBy (fun r => r.rid = rid) db.recipes }
  | .pushReviewSetAvg rid rev avg =>
    { db with recipes :=
        (updateFirstBy (fun r => r.rid = rid)
          (fun r => { r with reviews := r.reviews ++ [rev],
                             average_rating := avg })
          db.recipes) }

/-- State of the database after a handler's storage operations. -/
def runEvents (db : Db) (evs : List DbEvent) : Db :=
  evs.foldl applyDbEvent db

/-- All intermediate database states while a handler's storage operations
execute, the initial state included. -/
def traceStates (db : Db) : List DbEvent → List Db
  | [] => [db]
  | e :: evs => db :: traceStates (applyDbEvent db e) evs

/-! ## IEEE-754 binary64 model

JavaScript numbers are binary64 floats.  The only place the source makes
an observable float rounding is the division in `computeAverageRating`,
so we model the binary64 rounding of a positive rational exactly:
round-to-nearest with ties to even at 53 significand bits.  Exponent
range limits (overflow, subnormals) are irrelevant at the magnitudes the
program handles and are not modelled. -/

/-- Fuel-driven floor of `log2` (structural recursion so the kernel can
evaluate it; `log2floorAux n n` is exact for every `n ≥ 1`). -/
def log2floorAux : Nat → Nat → Nat
  | 0, _ => 0
  | fuel + 1, n => if 2 ≤ n then log2floorAux fuel (n / 2) + 1 else 0

def log2floor (n : Nat) : Nat := log2floorAux n n

/-- Round `a / b` (with `b ≠ 0`) to the nearest integer, ties to even. -/
def roundNearEven (a b : Nat) : Nat :=
  let q := a / b
  let r := a % b
  if 2 * r < b then q
  else if b < 2 * r then q + 1
  else if q % 2 = 0 then q else q + 1

/-- Binary64 rounding of the positive rational `p / q` (`p, q ≥ 1`),
returned as mantissa and binary exponent: the rounded value is
`m * 2 ^ (e - 52)` with `2 ^ 52 ≤ m ≤ 2 ^ 53`.  The exponent `e` is the
unique integer with `2 ^ e ≤ p / q < 2 ^ (e + 1)`. -/
def doubleParts (p q : Nat) : Nat × Int :=
  let e : Int :=
    if q ≤ p then (log2floor (p / q) : Int)
    else
      let f := log2floor (q / p)
      if p * 2 ^ f = q then -(f : Int) else -(f : Int) - 1
  let k : Int := 52 - e
  let a := if 0 ≤ k then p * 2 ^ k.toNat else p
  let b := if 0 ≤ k then q else q * 2 ^ (-k).toNat
  (roundNearEven a b, e)

/-- `⌊10 * x + 1/2⌋` where `x` is the binary64 rounding of `p / q`
(`p, q ≥ 1`): the number of tenths in `toFixed(1)` of the quotient
(ECMA-262 `toFixed` picks the nearest multiple of `1/10`, ties to the
larger candidate, which for nonnegative values is `⌊10 x + 1/2⌋ / 10`). -/
def tenthsPos (p q : Nat) : Nat :=
  let me := doubleParts p q
  let k : Int := 52 - me.2
  if 0 < k then (10 * me.1 + 2 ^ (k.toNat - 1)) / 2 ^ k.toNat
  else 10 * me.1 * 2 ^ (-k).toNat

/-- Tenths of the value `computeAverageRating` produces for total rating
`tot` and review count `cnt`: the quotient `tot / cnt` is computed in
binary64, rounded to one decimal with `toFixed(1)` and parsed back
(`toFixed` of a negative value is the sign applied to `toFixed` of the
absolute value). -/
def jsAvgTenths (tot : Int) (cnt : Nat) : Int :=
  if tot = 0 then 0
  else if 0 < tot then (tenthsPos tot.toNat cnt : Int)
  else -(tenthsPos (-tot).toNat cnt : Int)

/-! ## Rating aggregator (`computeAverageRating`) -/

/-- `computeAverageRating(recipeId, newRating)`: reads the recipe's review
ratings (projection `reviews.rating`), sums them, adds the new rating,
divides by (count + 1) in binary64, rounds the quotient to one decimal
with `toFixed(1)` and parses it back (`parseFloat` of the short decimal
string is modelled as the exact decimal value).  `none` models the
`TypeError` thrown when the recipe id matches no document
(`recipeRecord.reviews` on `null`). -/
def computeAverageRating (db : Db) (recipeId : Id) (newRating : Int) :
    Option ℚ :=
  match findRecipe db recipeId with
  | none => none
  | some recipeRecord =>
    let totalRating :=
      recipeRecord.reviews.foldl (fun acc rev => acc + rev.rating) 0
      + newRating
    some (mkRat (jsAvgTenths totalRating (recipeRecord.reviews.length + 1)) 10)

/-- Modelled from the spec: "round to 1 decimal place using standard
'round half away from zero' semantics", applied to an exact rational.
For `0 ≤ x` this is `⌊10 x + 1/2⌋ / 10` (written on the numerator and
denominator of `x`, with flooring integer division); for `x < 0` the
sign is applied to the rounding of `-x`. -/
def specRound1 (x : ℚ) : ℚ :=
  if 0 ≤ x then mkRat (Int.fdiv (20 * x.num + (x.den : Int)) (2 * (x.den : Int))) 10
  else mkRat (-(Int.fdiv (20 * (-x.num) + (x.den : Int)) (2 * (x.den : Int)))) 10

/-- Modelled from the spec: the claimed new average after appending a
rating `r` to existing ratings `rs` — the exact mean, rounded half away
from zero to one decimal. -/
def specNewAverage (rs : List Int) (r : Int) : ℚ :=
  specRound1 (Rat.divInt (rs.sum + r) (rs.length + 1))

/-! ## Recipe populator (`populateRecipeFields`)

The populator replaces the reference fields of a recipe document with the
resolved documents: `coffee_beans` becomes the list of `findOne` results
in the original id order (a missing id resolves to `none`), `grinder` is
resolved only when the field is present, `brewer` and `brewing_method`
are always resolved (to `none` when missing).  JavaScript mutates the
document in place; the embedding returns the new document together with
the reads performed. -/

/-- A recipe after population.  `grinder = none` models the field left
untouched because it was absent; `grinder = some none` models a present
reference that resolved to `null`. -/
structure PopulatedRecipe where
  rid : Id
  image_url : String
  recipe_name : String
  description : String
  average_rating : ℚ
  user : RecipeUser
  date : Nat
  total_brew_time : String
  brew_yield : String
  brewing_method : Option RefDoc
  coffee_beans : List (Option RefDoc)
  coffee_rest_period : String
  amount_of_coffee : ℚ
  grinder : Option (Option RefDoc)
  grind_setting : String
  amount_of_water : String
  water_temperature : ℚ
  additional_ingredients : List String
  brewer : Option RefDoc
  additional_equipment : List String
  steps : List String
  reviews : List Review
  deriving DecidableEq, Repr

/-- The bean-resolution loop of `populateRecipeFields`: one `findOne` per
id, pushing the result (possibly `null`). -/
def resolveBeans (db : Db) : List Id → List (Option RefDoc) × List DbEvent
  | [] => ([], [])
  | i :: rest =>
    let r := resolveBeans db rest
    (findRef db.beans i :: r.1, DbEvent.findBean i :: r.2)

def populateRecipeFields (db : Db) (recipe : Recipe) :
    PopulatedRecipe × List DbEvent :=
  let beansR := resolveBeans db recipe.coffee_beans
  let grinderR : Option (Option RefDoc) × List DbEvent :=
    match recipe.grinder with
    | some g => (some (findRef db.grinders g), [DbEvent.findGrinder g])
    | none => (none, [])
  let brewerR := findRef db.brewers recipe.brewer
  let methodR := findRef db.methods recipe.brewing_method
  (⟨recipe.rid, recipe.image_url, recipe.recipe_name, recipe.description,
    recipe.average_rating, recipe.user, recipe.date, recipe.total_brew_time,
    recipe.brew_yield, methodR, beansR.1, recipe.coffee_rest_period,
    recipe.amount_of_coffee, grinderR.1, recipe.grind_setting,
    recipe.amount_of_water, recipe.water_temperature,
    recipe.additional_ingredients, brewerR, recipe.additional_equipment,
    recipe.steps, recipe.reviews⟩,
   beansR.2 ++ grinderR.2 ++
     [DbEvent.findBrewer recipe.brewer, DbEvent.findMethod recipe.brewing_method])

/-! ## Listing projection (`GET /recipes`)

The listing query projects out `user.email` and `reviews`
(`projection: { 'user.email': 0, reviews: 0 }`); the projected documents
have no email and no reviews by construction. -/

/-- `user` subdocument with `user.email` projected out. -/
structure ProjUser where
  username : String
  deriving DecidableEq, Repr

/-- A recipe document as returned by the listing query: no `user.email`,
no `reviews`. -/
structure ProjRecipe where
  rid : Id
  image_url : String
  recipe_name : String
  description : String
  average_rating : ℚ
  user : ProjUser
  date : Nat
  total_brew_time : String
  brew_yield : String
  brewing_method : Id
  coffee_beans : List Id
  coffee_rest_period : String
  amount_of_coffee : ℚ
  grinder : Option Id
  grind_setting : String
  amount_of_water : String
  water_temperature : ℚ
  additional_ingredients : List String
  brewer : Id
  additional_equipment : List String
  steps : List String
  deriving DecidableEq, Repr

def projectRecipe (r : Recipe) : ProjRecipe :=
  ⟨r.rid, r.image_url, r.recipe_name, r.description, r.average_rating,
   ⟨r.user.username⟩, r.date, r.total_brew_time, r.brew_yield,
   r.brewing_method, r.coffee_beans, r.coffee_rest_period,
   r.amount_of_coffee, r.grinder, r.grind_setting, r.amount_of_water,
   r.water_temperature, r.additional_ingredients, r.brewer,
   r.additional_equipment, r.steps⟩

/-- A projected recipe after population. -/
structure PopProjRecipe where
  rid : Id
  image_url : String
  recipe_name : String
  description : String
  average_rating : ℚ
  user : ProjUser
  date : Nat
  total_brew_time : String
  brew_yield : String
  brewing_method : Option RefDoc
  coffee_beans : List (Option RefDoc)
  coffee_rest_period : String
  amount_of_coffee : ℚ
  grinder : Option (Option RefDoc)
  grind_setting : String
  amount_of_water : String
  water_temperature : ℚ
  additional_ingredients : List String
  brewer : Option RefDoc
  additional_equipment : List String
  steps : List String
  deriving DecidableEq, Repr

/-- `populateRecipeFields` applied to a projected listing document (the
same JavaScript function; the document just lacks the projected-out
fields). -/
def populateProjFields (db : Db) (recipe : ProjRecipe) :
    PopProjRecipe × List DbEvent :=
  let beansR := resolveBeans db recipe.coffee_beans
  let grinderR : Option (Option RefDoc) × List DbEvent :=
    match recipe.grinder with
    | some g => (some (findRef db.grinders g), [DbEvent.findGrinder g])
    | none => (none, [])
  let brewerR := findRef db.brewers recipe.brewer
  let methodR := findRef db.methods recipe.brewing_method
  (⟨recipe.rid, recipe.image_url, recipe.recipe_name, recipe.description,
    recipe.average_rating, recipe.user, recipe.date, recipe.total_brew_time,
    recipe.brew_yield, methodR, beansR.1, recipe.coffee_rest_period,
    recipe.amount_of_coffee, grinderR.1, recipe.grind_setting,
    recipe.amount_of_water, recipe.water_temperature,
    recipe.additional_ingredients, brewerR, recipe.additional_equipment,
    recipe.steps⟩,
   beansR.2 ++ grinderR.2 ++
     [DbEvent.findBrewer recipe.brewer, DbEvent.findMethod recipe.brewing_method])

/-! ## Responses

`{status: 'success', data}` / `{status: 'fail', data}` (400, field-keyed
errors) / `{status: 'error', message}` (500).  A handler result of `none`
models an exception escaping the handler: no response is sent at all. -/

inductive ApiResp (α : Type) where
  | success (code : Nat) (data : α)
  | fail (errors : List (String × String))
  | dbError
  deriving DecidableEq, Repr

def joinL : List (List α) → List α
  | [] => []
  | l :: ls => l ++ joinL ls

/-! ## Query criteria builder and listing handler (`GET /recipes`) -/

structure Criteria where
  nameSub : Option String
  beansAll : Option (List Id)
  grinderEq : Option Id
  methodEq : Option Id
  brewerEq : Option Id
  minRating : Option ℚ
  deriving DecidableEq, Repr

/-- Whether a recipe document matches the built filter. -/
def recipeMatches (c : Criteria) (r : Recipe) : Bool :=
  (match c.nameSub with
   | none => true
   | some pat => containsCI pat r.recipe_name) &&
  (match c.beansAll with
   | none => true
   | some ids => ids.all (fun i => r.coffee_beans.contains i)) &&
  (match c.grinderEq with
   | none => true
   | some g => r.grinder = some g) &&
  (match c.methodEq with
   | none => true
   | some m => r.brewing_method = m) &&
  (match c.brewerEq with
   | none => true
   | some b => r.brewer = b) &&
  (match c.minRating with
   | none => true
   | some q => q ≤ r.average_rating)

inductive SortKey where
  | byDate
  | byRating
  deriving DecidableEq, Repr

/-- Descending comparison for the resolved sort option. -/
def sortKeyLe (k : SortKey) (a b : Recipe) : Bool :=
  match k with
  | .byDate => decide (b.date ≤ a.date)
  | .byRating => decide (b.average_rating ≤ a.average_rating)

def insertOrd (le : α → α → Bool) (x : α) : List α → List α
  | [] => [x]
  | y :: ys => if le x y then x :: y :: ys else y :: insertOrd le x ys

def sortOrd (le : α → α → Bool) : List α → List α
  | [] => []
  | x :: xs => insertOrd le x (sortOrd le xs)

/-- Query parameters of `GET /recipes` (absent = not in the query
string). -/
structure ListParams where
  name : Option String := none
  beans : Option String := none
  grinder : Option String := none
  method : Option String := none
  brewer : Option String := none
  rating : Option String := none
  page : Option String := none
  limit : Option String := none
  sort : Option String := none
  deriving DecidableEq, Repr

/-- Convert every element, failing when any single conversion fails
(the `beans.map(ObjectId)` loop, which throws at the first bad part). -/
def mapOption (f : α → Option β) : List α → Option (List β)
  | [] => some []
  | x :: xs =>
    match f x, mapOption f xs with
    | some y, some ys => some (y :: ys)
    | _, _ => none

/-- The `beans` parameter: comma-split, each part through `ObjectId`;
outer `none` models the constructor throwing on a malformed part. -/
def beansCrit : Option String → Option (Option (List Id))
  | none => some none
  | some s =>
    if s.data = [] then some none
    else
      match mapOption (fun part => mkObjectId (String.mk part)) (splitCh ',' s.data) with
      | none => none
      | some ids => some (some ids)

/-- An id-valued parameter (`grinder` / `method` / `brewer`) through
`ObjectId`; outer `none` models the constructor throwing. -/
def idCrit : Option String → Option (Option Id)
  | none => some none
  | some s =>
    if s.data = [] then some none
    else
      match mkObjectId s with
      | none => none
      | some i => some (some i)

/-- Output of query-string processing, before the error check. -/
structure Prepared where
  crit : Criteria
  errs : List (String × String)
  sortKey : Option SortKey
  limit : Option Int
  page : Option ℚ
  deriving DecidableEq, Repr

/-- The query-string processing of `GET /recipes` (source lines building
`criteria`, `errorData`, `page`, `limit` and `sortOption`); `none` models
an `ObjectId` conversion throwing, which aborts the handler before the
error check. -/
def prepare (p : ListParams) : Option Prepared :=
  let nameC : Option String :=
    match p.name with
    | none => none
    | some s => if s.data = [] then none else some s
  match beansCrit p.beans with
  | none => none
  | some beansC =>
  match idCrit p.grinder with
  | none => none
  | some grinderC =>
  match idCrit p.method with
  | none => none
  | some methodC =>
  match idCrit p.brewer with
  | none => none
  | some brewerC =>
    let ratingR : Option ℚ × List (String × String) :=
      match p.rating with
      | none => (none, [])
      | some s =>
        if s.data = [] then (none, [])
        else
          match jsNumber s with
          | some q => (some q, [])
          | none => (none, [("rating", "Invalid value specified for rating")])
    let pageV : Option ℚ :=
      match p.page with
      | none => some 1
      | some s => if s.data = [] then some 1 else jsNumber s
    let limitV : Option Int :=
      match p.limit with
      | none => some 10
      | some s => if s.data = [] then some 10 else jsParseInt s
    let sortR : Option SortKey × List (String × String) :=
      match p.sort with
      | none => (some SortKey.byDate, [])
      | some s =>
        if s.data = [] || s = "date" then (some SortKey.byDate, [])
        else if s = "rating" then (some SortKey.byRating, [])
        else (none, [("sort", "Invalid value specified for sort")])
    some ⟨⟨nameC, beansC, grinderC, methodC, brewerC, ratingR.1⟩,
          ratingR.2 ++ sortR.2, sortR.1, limitV, pageV⟩

/-- The driver-validated skip value `(page - 1) * limit`: `none` when it
is not a nonnegative integer (the cursor call then throws inside the
`try`, surfacing as a 500). -/
def skipOf (P : ℚ) (L : Int) : Option Nat :=
  let n : Int := (P.num - (P.den : Int)) * L
  if n % (P.den : Int) = 0 && 0 ≤ n / (P.den : Int) then
    some (n / (P.den : Int)).toNat
  else none

/-- `cursor.limit(L)`: `0` means no limit; a negative `L` caps at `|L|`
documents (single-batch semantics). -/
def jsLimitTake (L : Int) (l : List α) : List α :=
  if L = 0 then l else l.take L.natAbs

structure ListData where
  result : List PopProjRecipe
  count : Nat
  pages : Nat
  deriving DecidableEq, Repr

/-- `GET /recipes`: build criteria and collect validation errors; if any
error exists, return the full error set with no storage access; otherwise
count matching documents, compute `pages = ceil(count / 10)`, fetch the
sorted/offset/limited page with `user.email` and `reviews` projected out,
and populate each result. -/
def listRecipes (db : Db) (p : ListParams) :
    Option (ApiResp ListData) × List DbEvent :=
  match prepare p with
  | none => (none, [])
  | some o =>
    if o.errs = [] then
      match o.limit, o.page with
      | some L, some P =>
        match skipOf P L with
        | some skip =>
          let matching := db.recipes.filter (recipeMatches o.crit)
          let count := matching.length
          let pages := (count + 9) / 10
          let sorted := sortOrd (sortKeyLe (o.sortKey.getD SortKey.byDate)) matching
          let pageDocs := jsLimitTake L (sorted.drop skip)
          let popResults := (pageDocs.map projectRecipe).map (populateProjFields db)
          (some (ApiResp.success 200
            ⟨popResults.map Prod.fst, count, pages⟩),
           DbEvent.countRecipes :: DbEvent.queryRecipes ::
             joinL (popResults.map Prod.snd))
        | none => (some ApiResp.dbError, [DbEvent.countRecipes])
      | _, _ => (some ApiResp.dbError, [DbEvent.countRecipes])
    else (some (ApiResp.fail o.errs), [])

/-! ## Remaining handlers -/

/-- `ObjectId` conversion of a string already known valid (total form). -/
def normId (s : String) : Id :=
  (mkObjectId s).getD s

/-- `GET /recipes/:recipe_id`: id validity check, `findOne`, population;
a well-formed id matching no document yields a field-keyed 400. -/
def getRecipeByIdH (db : Db) (recipeId : String) :
    Option (ApiResp PopulatedRecipe) × List DbEvent :=
  if isValidObjectId recipeId then
    let i := normId recipeId
    match findRecipe db i with
    | some recipeRecord =>
      let popR := populateRecipeFields db recipeRecord
      (some (ApiResp.success 200 popR.1), DbEvent.findRecipeById i :: popR.2)
    | none =>
      (some (ApiResp.fail [("id", "Invalid coffee recipe ID")]),
       [DbEvent.findRecipeById i])
  else (some (ApiResp.fail [("recipe_id", "Invalid recipe ID")]), [])

/-- `POST /recipes/:recipe_id/access`: fetch the stored owner hash and
compare the supplied plaintext email against it; the boolean comparison
result is the success payload (a mismatch is `success 200 false`, not an
error).  A recipe id matching no document makes `recipeRecord.user`
throw, surfacing as a 500. -/
def accessRecipe (db : Db) (recipeId : String) (email : Option String) :
    Option (ApiResp Bool) × List DbEvent :=
  if isValidObjectId recipeId then
    let i := normId recipeId
    match findRecipe db i with
    | none => (some ApiResp.dbError, [DbEvent.findRecipeById i])
    | some recipeRecord =>
      let stored := recipeRecord.user.email
      match email with
      | none =>
        (some (ApiResp.fail [("email", "Invalid email address")]),
         [DbEvent.findRecipeById i])
      | some e =>
        if e.data = [] || ¬ validateEmail e then
          (some (ApiResp.fail [("email", "Invalid email address")]),
           [DbEvent.findRecipeById i])
        else
          (some (ApiResp.success 200 (compareHash e stored)),
           [DbEvent.findRecipeById i])
  else (some (ApiResp.fail [("recipe_id", "Invalid recipe ID")]), [])

/-- `DELETE /recipes/:recipe_id`: `deleteOne` on recipes, then an
`updateMany` pulling the id from every favorites record containing it. -/
def deleteRecipeH (_db : Db) (recipeId : String) :
    Option (ApiResp Unit) × List DbEvent :=
  if isValidObjectId recipeId then
    let i := normId recipeId
    (some (ApiResp.success 200 ()),
     [DbEvent.deleteRecipeOne i, DbEvent.pullFavoriteAll i])
  else (some (ApiResp.fail [("recipe_id", "Invalid recipe ID")]), [])

/-! ## Review creation (`POST /recipes/:recipe_id/reviews`) -/

/-- Request body of the review endpoint.  Absent `title`/`content`/
`rating`/`username` behave as the empty string (all their checks use
falsiness); an absent `email` is kept as `none` because
`validateEmail(undefined)` throws. -/
structure ReviewBody where
  title : String := ""
  content : String := ""
  rating : String := ""
  username : String := ""
  email : Option String := none
  deriving DecidableEq, Repr

/-- `POST /recipes/:recipe_id/reviews`: validate fields (collecting the
full error set), hash the email, recompute the average rating from the
stored ratings plus the new one, and apply the review `$push` and the
average `$set` as one atomic `updateOne`. -/
def postReview (db : Db) (recipeId : String) (b : ReviewBody)
    (now : Nat) (newId : Id) (salt : Nat) :
    Option (ApiResp Unit) × List DbEvent :=
  if isValidObjectId recipeId then
    let i := normId recipeId
    let titleErrs :=
      if b.title.data = [] || b.title.data.length < 5 then
        [("title", "Title must be at least 5 characters")]
      else []
    let contentErrs :=
      if b.content.data = [] || b.content.data.length < 5 then
        [("content", "Content must be at least 5 characters")]
      else []
    let ratingParsed := jsParseInt b.rating
    let ratingVal := ratingParsed.getD 0
    let ratingErrs :=
      if ratingParsed = none || ratingVal = 0 || ratingVal < 1 || 5 < ratingVal then
        [("rating", "Rating must be an integer from 1 to 5")]
      else []
    let userErrs :=
      if b.username.data = [] || b.username.data.length < 5 then
        [("username", "Username must be at least 5 characters")]
      else []
    match b.email with
    | none => (some ApiResp.dbError, [])
    | some e =>
      let emailErrs :=
        if validateEmail e then [] else [("email", "Invalid email address")]
      let errs := titleErrs ++ contentErrs ++ ratingErrs ++ userErrs ++ emailErrs
      if errs = [] then
        match computeAverageRating db i ratingVal with
        | none => (some ApiResp.dbError, [DbEvent.findRecipeRatings i])
        | some newAverageRating =>
          let newReview : Review :=
            ⟨newId, now, b.title, b.content, ratingVal, b.username,
             bcryptHash salt e⟩
          (some (ApiResp.success 201 ()),
           [DbEvent.findRecipeRatings i,
            DbEvent.pushReviewSetAvg i newReview newAverageRating])
      else (some (ApiResp.fail errs), [])
  else (some (ApiResp.fail [("recipe_id", "Invalid recipe ID")]), [])

/-! ## Favorites manager -/

/-- `POST /favorites/:email`: validate the recipe id and email; when a
favorites record exists for the email, require the recipe to exist and
not yet be favorited, then `$push`; when none exists, insert a fresh
record with a singleton list (no recipe-existence check on this path).
`freshId` models the driver-generated `_id` of an inserted record. -/
def addFavorite (db : Db) (email : String) (recipeIdBody : Option String)
    (freshId : Id) : Option (ApiResp Unit) × List DbEvent :=
  match recipeIdBody with
  | none => (some (ApiResp.fail [("recipeId", "Invalid recipe ID")]), [])
  | some rid =>
    if isValidObjectId rid then
      if email.data = [] || ¬ validateEmail email then
        (some (ApiResp.fail [("email", "Invalid email address")]), [])
      else
        let i := normId rid
        match findFavByEmail db email with
        | some favoriteRecord =>
          match findRecipe db i with
          | none =>
            (some (ApiResp.fail [("recipeId", "Recipe does not exist")]),
             [DbEvent.findFavorite email, DbEvent.findRecipeById i])
          | some _ =>
            match db.favorites.find?
                (fun f => f.fid = favoriteRecord.fid && f.coffee_recipes.contains i) with
            | some _ =>
              (some (ApiResp.fail
                 [("recipeId", "Recipe ID is already in favorites collection")]),
               [DbEvent.findFavorite email, DbEvent.findRecipeById i,
                DbEvent.findFavoriteWith favoriteRecord.fid i])
            | none =>
              (some (ApiResp.success 200 ()),
               [DbEvent.findFavorite email, DbEvent.findRecipeById i,
                DbEvent.findFavoriteWith favoriteRecord.fid i,
                DbEvent.pushFavorite favoriteRecord.fid i])
        | none =>
          (some (ApiResp.success 201 ()),
           [DbEvent.findFavorite email,
            DbEvent.insertFavorite ⟨freshId, email, [i]⟩])
    else (some (ApiResp.fail [("recipeId", "Invalid recipe ID")]), [])

/-- `DELETE /favorites/:email`: reject when the id is not in the user's
list, else `$pull` it. -/
def removeFavorite (db : Db) (email : String) (recipeIdBody : Option String) :
    Option (ApiResp Unit) × List DbEvent :=
  match recipeIdBody with
  | none => (some (ApiResp.fail [("recipeId", "Invalid recipe ID")]), [])
  | some rid =>
    if isValidObjectId rid then
      if email.data = [] || ¬ validateEmail email then
        (some (ApiResp.fail [("email", "Invalid email address")]), [])
      else
        let i := normId rid
        match db.favorites.find?
            (fun f => f.user_email = email && f.coffee_recipes.contains i) with
        | none =>
          (some (ApiResp.fail
             [("recipeId", "Recipe ID does not exist in favorites collection")]),
           [DbEvent.findFavoriteElem email i])
        | some _ =>
          (some (ApiResp.success 200 ()),
           [DbEvent.findFavoriteElem email i, DbEvent.pullFavorite email i])
    else (some (ApiResp.fail [("recipeId", "Invalid recipe ID")]), [])

structure FavData where
  result : Option (List PopulatedRecipe)
  count : Option Nat
  pages : Nat
  deriving DecidableEq, Repr

/-- `Array.prototype.slice(start, stop)` with JavaScript index
normalisation (negative indices count from the end). -/
def jsSlice (start stop : Int) (l : List α) : List α :=
  let len : Int := l.length
  let norm : Int → Nat := fun i =>
    if i < 0 then (max (len + i) 0).toNat else (min i len).toNat
  (l.take (norm stop)).drop (norm start)

/-- The population loop of `GET /favorites/:email`: each referenced
recipe is fetched and populated; a stale reference makes
`populateRecipeFields(null)` throw (`none`), surfacing as a 500. -/
def resolveFavRecipes (db : Db) :
    List Id → Option (List PopulatedRecipe) × List DbEvent
  | [] => (some [], [])
  | i :: rest =>
    match findRecipe db i with
    | none => (none, [DbEvent.findRecipeById i])
    | some r =>
      let popR := populateRecipeFields db r
      let restR := resolveFavRecipes db rest
      (match restR.1 with
       | none => none
       | some l => some (popR.1 :: l),
       DbEvent.findRecipeById i :: popR.2 ++ restR.2)

/-- `GET /favorites/:email`: look the record up by plaintext email,
populate every referenced recipe, then slice a fixed-size-10 page; with
no record, respond `result: null, pages: 1`. -/
def listFavorites (db : Db) (email : String) (pageParam : Option String) :
    Option (ApiResp FavData) × List DbEvent :=
  let page : Int :=
    match pageParam with
    | none => 1
    | some s =>
      match jsParseInt s with
      | none => 1
      | some n => if n = 0 then 1 else n
  if email.data = [] || ¬ validateEmail email then
    (some (ApiResp.fail [("email", "Invalid email address")]), [])
  else
    match findFavByEmail db email with
    | none =>
      (some (ApiResp.success 200 ⟨none, none, 1⟩), [DbEvent.findFavorite email])
    | some favoriteRecords =>
      let resolved := resolveFavRecipes db favoriteRecords.coffee_recipes
      match resolved.1 with
      | none => (some ApiResp.dbError, DbEvent.findFavorite email :: resolved.2)
      | some recipes =>
        let startIndex : Int := (page - 1) * 10
        let endIndex : Int := page * 10
        let totalPages := (recipes.length + 9) / 10
        (some (ApiResp.success 200
           ⟨some (jsSlice startIndex endIndex recipes), some recipes.length,
            totalPages⟩),
         DbEvent.findFavorite email :: resolved.2)

/-! ## Response projections (used to state endpoint properties) -/

def listPagesOf : Option (ApiResp ListData) × List DbEvent → Option Nat
  | (some (ApiResp.success _ d), _) => some d.pages
  | _ => none

def listCountOf : Option (ApiResp ListData) × List DbEvent → Option Nat
  | (some (ApiResp.success _ d), _) => some d.count
  | _ => none

def listResultOf :
    Option (ApiResp ListData) × List DbEvent → Option (List PopProjRecipe)
  | (some (ApiResp.success _ d), _) => some d.result
  | _ => none

def favPagesOf : Option (ApiResp FavData) × List DbEvent → Option Nat
  | (some (ApiResp.success _ d), _) => some d.pages
  | _ => none

/-! ## Helper lemmas -/

theorem foldl_add_rating (l : List Review) (a : Int) :
    l.foldl (fun acc rev => acc + rev.rating) a
      = a + (l.map Review.rating).sum := by
  induction l generalizing a with
  | nil => simp
  | cons x xs ih => simp [ih, add_assoc]

theorem find?_updateFirstBy (p : α → Bool) (f : α → α) (l : List α)
    (hf : ∀ a, p a = true → p (f a) = true) :
    List.find? p (updateFirstBy p f l) = (List.find? p l).map f := by
  induction l with
  | nil => simp [updateFirstBy]
  | cons x xs ih =>
    by_cases hx : p x = true
    · simp [updateFirstBy, hx, List.find?_cons, hf x hx]
    · have hx' : p x = false := by simpa using hx
      simp [updateFirstBy, hx', List.find?_cons, ih]

theorem mem_insertOrd {x y : α} {le : α → α → Bool} {l : List α} :
    x ∈ insertOrd le y l ↔ x = y ∨ x ∈ l := by
  induction l with
  | nil => simp [insertOrd]
  | cons z zs ih =>
    by_cases h : le y z = true
    · simp [insertOrd, h, or_comm, or_assoc, or_left_comm]
    · have h' : le y z = false := by simpa using h
      simp [insertOrd, h', ih]
      tauto

theorem mem_sortOrd {x : α} {le : α → α → Bool} {l : List α} :
    x ∈ sortOrd le l ↔ x ∈ l := by
  induction l with
  | nil => simp [sortOrd]
  | cons z zs ih => simp [sortOrd, mem_insertOrd, ih]

theorem resolveBeans_eq (db : Db) (l : List Id) :
    resolveBeans db l
      = (l.map (findRef db.beans), l.map DbEvent.findBean) := by
  induction l with
  | nil => simp [resolveBeans]
  | cons i rest ih => simp [resolveBeans, ih]

/-- A validated email is nonempty. -/
theorem validateEmail_ne_nil {e : String} (h : validateEmail e = true) :
    e.data ≠ [] := by
  intro hnil
  obtain ⟨data⟩ := e
  simp only at hnil
  subst hnil
  simp [validateEmail, splitCh] at h

/-! ## Concrete fixtures (for counterexamples and witnesses) -/

def sampleHash : HashV := bcryptHash 7 "owner@example.com"

/-- A plain recipe with no reviews and no optional grinder, indexed to
give distinct ids and dates. -/
def sampleRecipe (n : Nat) : Recipe :=
  ⟨"aaaaaaaaaaaaaaaaaaaaaaa" ++ String.mk [Char.ofNat (97 + n % 26)],
   "http://img.example.com/c.png", "Morning pour over",
   "A bright single origin cup", 0, ⟨"owner", sampleHash⟩, n,
   "3 min", "250 ml", "bbbbbbbbbbbbbbbbbbbbbbbb", [], "1 week", 15, none,
   "5", "250 ml", 92, [], "cccccccccccccccccccccccc", [], ["pour water"], []⟩

/-- 23 recipes, no favorites, empty reference collections. -/
def sampleDb23 : Db := ⟨(List.range 23).map sampleRecipe, [], [], [], [], []⟩

def emptyDb : Db := ⟨[], [], [], [], [], []⟩

def ratedReview (n : Nat) (rate : Int) : Review :=
  ⟨"e" ++ toString n, n, "Great recipe", "Loved this one", rate,
   "reviewer", bcryptHash n "reviewer@example.com"⟩

/-- Nineteen reviews whose ratings sum to 28 (nine 2s and ten 1s), so a
new rating of 1 makes the exact mean 29/20 = 1.45. -/
def nineteenReviews : List Review :=
  ((List.range 9).map (fun n => ratedReview n 2)) ++
    ((List.range 10).map (fun n => ratedReview (9 + n) 1))

def ratedRecipe : Recipe :=
  ⟨"aaaaaaaaaaaaaaaaaaaaaaaa", "http://img.example.com/c.png",
   "Morning pour over", "A bright single origin cup", 0,
   ⟨"owner", sampleHash⟩, 5, "3 min", "250 ml",
   "bbbbbbbbbbbbbbbbbbbbbbbb", [], "1 week", 15, none, "5", "250 ml", 92,
   [], "cccccccccccccccccccccccc", [], ["pour water"], nineteenReviews⟩

def ratedDb : Db := ⟨[ratedRecipe], [], [], [], [], []⟩

/-- A recipe with no reviews yet (first-review edge case). -/
def freshRecipe : Recipe :=
  { ratedRecipe with rid := "dddddddddddddddddddddddd", reviews := [] }

def freshDb : Db := ⟨[freshRecipe], [], [], [], [], []⟩

def sampleReviewBody : ReviewBody :=
  { title := "Solid brew", content := "Really enjoyed it", rating := "1",
    username := "drinker", email := some "alice@example.com" }

def sampleFavorite : Favorite :=
  ⟨"f0f0f0f0f0f0f0f0f0f0f0f0", "alice@example.com",
   ["aaaaaaaaaaaaaaaaaaaaaaaa"]⟩

def favDb : Db := ⟨[ratedRecipe], [sampleFavorite], [], [], [], []⟩

theorem runEvents_append (db : Db) (l1 l2 : List DbEvent) :
    runEvents db (l1 ++ l2) = runEvents (runEvents db l1) l2 :=
  List.foldl_append ..

theorem runEvents_findBean_map (db : Db) (l : List Id) :
    List.foldl applyDbEvent db (l.map DbEvent.findBean) = db := by
  induction l with
  | nil => rfl
  | cons i rest ih => simpa [applyDbEvent] using ih

/-! ## Claim theorems -/

/-- C4: after the recipe-delete handler completes for a (well-formed)
recipe id, no favorites record in the resulting database contains that id
in its `coffee_recipes` list — the `deleteOne` is followed by an
`updateMany` `$pull` of the id from every favorites record. -/
theorem deleteRecipe_prunes_favorites (db : Db) (recipeId : String)
    (h : isValidObjectId recipeId = true) (f : Favorite)
    (hf : f ∈ (runEvents db (deleteRecipeH db recipeId).2).favorites) :
    normId recipeId ∉ f.coffee_recipes := by
  simp only [deleteRecipeH, h, if_true, runEvents, List.foldl, applyDbEvent] at hf
  obtain ⟨f0, _, rfl⟩ := List.mem_map.mp hf
  intro hmem
  have := (List.mem_filter.mp hmem).2
  simp at this

/-- Witness for C4 at a concrete database: the favorites record that
referenced the deleted recipe no longer contains it. -/
theorem deleteRecipe_prunes_favorites_witness :
    normId "aaaaaaaaaaaaaaaaaaaaaaaa" ∉
      (Favorite.mk "f0f0f0f0f0f0f0f0f0f0f0f0" "alice@example.com"
        []).coffee_recipes :=
  deleteRecipe_prunes_favorites favDb "aaaaaaaaaaaaaaaaaaaaaaaa" (by decide)
    (Favorite.mk "f0f0f0f0f0f0f0f0f0f0f0f0" "alice@example.com" [])
    (by decide)

/-- C6: the populator replaces `coffee_beans` with the resolved documents
in the original id order (one `findOne` per id, a missing id giving a
`none` entry), replaces `grinder` only when the field is present, always
replaces `brewer` and `brewing_method`, leaves every other field
untouched, and its storage operations leave the database unchanged (reads
only, no writes). -/
theorem populateRecipeFields_resolves_references (db : Db) (r : Recipe) :
    (populateRecipeFields db r).1 =
      ⟨r.rid, r.image_url, r.recipe_name, r.description, r.average_rating,
       r.user, r.date, r.total_brew_time, r.brew_yield,
       findRef db.methods r.brewing_method,
       r.coffee_beans.map (findRef db.beans),
       r.coffee_rest_period, r.amount_of_coffee,
       r.grinder.map (findRef db.grinders),
       r.grind_setting, r.amount_of_water, r.water_temperature,
       r.additional_ingredients, findRef db.brewers r.brewer,
       r.additional_equipment, r.steps, r.reviews⟩ ∧
    runEvents db (populateRecipeFields db r).2 = db := by
  constructor
  · cases hg : r.grinder <;>
      simp [populateRecipeFields, resolveBeans_eq, hg]
  · cases hg : r.grinder <;>
      simp [populateRecipeFields, resolveBeans_eq, hg, runEvents_append,
        runEvents_findBean_map, runEvents, applyDbEvent]

/-- C7: the ownership verifier. `verify(e, hash(e))` is true;
`verify(e, hash(e'))` is false for a different email `e'`; hashing the
same email with two different salts gives different hash values that both
verify; and through the access endpoint a mismatch is reported as
`success 200 false` — a normal boolean result, never an error response.
(The bcrypt primitive is external to the repository and is modelled from
the spec's collaborator contract, with the random salt explicit.) -/
theorem ownership_verifier_contract :
    (∀ (s : Nat) (e : String), compareHash e (bcryptHash s e) = true) ∧
    (∀ (s : Nat) (e e' : String), e ≠ e' →
      compareHash e (bcryptHash s e') = false) ∧
    (∀ (s s' : Nat) (e : String), s ≠ s' →
      bcryptHash s e ≠ bcryptHash s' e ∧
      compareHash e (bcryptHash s e) = true ∧
      compareHash e (bcryptHash s' e) = true) ∧
    (∀ (db : Db) (recipeId : String) (rec : Recipe) (e : String),
      isValidObjectId recipeId = true →
      findRecipe db (normId recipeId) = some rec →
      validateEmail e = true →
      (accessRecipe db recipeId (some e)).1 =
        some (ApiResp.success 200 (compareHash e rec.user.email))) := by
  refine ⟨?_, ?_, ?_, ?_⟩
  · intro s e; simp [compareHash, bcryptHash]
  · intro s e e' hne
    simp [compareHash, bcryptHash]
    exact fun h => absurd h.symm hne
  · intro s s' e hne
    refine ⟨?_, by simp [compareHash, bcryptHash], by simp [compareHash, bcryptHash]⟩
    intro h
    exact hne (congrArg HashV.salt h)
  · intro db recipeId rec e hid hrec hev
    have hne := validateEmail_ne_nil hev
    simp [accessRecipe, hid, hrec, hev, hne]

/-- Witness for C7 at concrete emails, salts and a concrete database
(the stored owner hash does not match the requesting email, and the
endpoint reports `false` with success status). -/
theorem ownership_verifier_contract_witness :
    compareHash "alice@example.com" (bcryptHash 3 "alice@example.com") = true ∧
    compareHash "alice@example.com" (bcryptHash 3 "owner@example.com") = false ∧
    bcryptHash 3 "alice@example.com" ≠ bcryptHash 4 "alice@example.com" ∧
    (accessRecipe ratedDb "aaaaaaaaaaaaaaaaaaaaaaaa"
        (some "alice@example.com")).1 =
      some (ApiResp.success 200 false) := by
  refine ⟨ownership_verifier_contract.1 3 "alice@example.com",
          ownership_verifier_contract.2.1 3 "alice@example.com"
            "owner@example.com" (by decide),
          (ownership_verifier_contract.2.2.1 3 4 "alice@example.com"
            (by decide)).1, ?_⟩
  have h := ownership_verifier_contract.2.2.2 ratedDb
    "aaaaaaaaaaaaaaaaaaaaaaaa" ratedRecipe "alice@example.com"
    (by decide) (by decide) (by decide)
  rw [h]
  decide

theorem mapOption_eq_none_of_mem {f : α → Option β} {l : List α} {x : α}
    (hx : x ∈ l) (hfx : f x = none) : mapOption f l = none := by
  induction l with
  | nil => cases hx
  | cons a as ih =>
    rcases List.mem_cons.mp hx with rfl | hmem
    · simp [mapOption, hfx]
    · cases hfa : f a <;> simp [mapOption, hfa, ih hmem]

/-- C2: when the listing query carries both an unparsable `rating` and a
`sort` value that is neither `date` nor `rating` (the id-valued
parameters being absent or well-formed, so that criteria building does
not throw first), the response is the 400 failure carrying the `rating`
error and the `sort` error together, and the handler performs no storage
operation at all. -/
theorem listRecipes_reports_rating_and_sort_errors_together
    (db : Db) (p : ListParams) (rs ss : String)
    (hbeans : beansCrit p.beans ≠ none) (hgr : idCrit p.grinder ≠ none)
    (hme : idCrit p.method ≠ none) (hbr : idCrit p.brewer ≠ none)
    (hr : p.rating = some rs) (hrne : rs.data ≠ [])
    (hrnan : jsNumber rs = none)
    (hs : p.sort = some ss) (hsne : ss.data ≠ [])
    (hsd : ss ≠ "date") (hsr : ss ≠ "rating") :
    listRecipes db p =
      (some (ApiResp.fail
        [("rating", "Invalid value specified for rating"),
         ("sort", "Invalid value specified for sort")]), []) := by
  obtain ⟨bc, hbc⟩ := Option.ne_none_iff_exists'.mp hbeans
  obtain ⟨gc, hgc⟩ := Option.ne_none_iff_exists'.mp hgr
  obtain ⟨mc, hmc⟩ := Option.ne_none_iff_exists'.mp hme
  obtain ⟨brc, hbrc⟩ := Option.ne_none_iff_exists'.mp hbr
  simp [listRecipes, prepare, hbc, hgc, hmc, hbrc, hr, hs, hrne, hrnan,
    hsne, hsd, hsr]

/-- Witness for C2: `rating=abc` together with `sort=popularity` yields
exactly the two field-keyed errors and an empty storage trace. -/
theorem listRecipes_rating_sort_errors_witness :
    listRecipes emptyDb
      { rating := some "abc", sort := some "popularity" } =
      (some (ApiResp.fail
        [("rating", "Invalid value specified for rating"),
         ("sort", "Invalid value specified for sort")]), []) :=
  listRecipes_reports_rating_and_sort_errors_together emptyDb
    { rating := some "abc", sort := some "popularity" } "abc" "popularity"
    (by decide) (by decide) (by decide) (by decide) rfl (by decide)
    (by decide) rfl (by decide) (by decide) (by decide)

/-- C9 (counterexample): a malformed `grinder` id does not produce a
field-keyed validation error at all — the `ObjectId` conversion throws
outside the `try`, the handler sends no response (`none`), though indeed
no storage access happens. -/
theorem listRecipes_invalid_id_counterexample :
    listRecipes sampleDb23 { grinder := some "xyz" } = (none, []) ∧
    ∀ errs, (listRecipes sampleDb23 { grinder := some "xyz" }).1 ≠
      some (ApiResp.fail errs) := by
  have h1 : listRecipes sampleDb23 { grinder := some "xyz" } = (none, []) := by
    decide
  refine ⟨h1, ?_⟩
  intro errs hcontra
  rw [h1] at hcontra
  simp at hcontra

/-- C9 (amended): an id-like listing parameter (a `beans` entry,
`grinder`, `method` or `brewer`) that is present, nonempty and not
accepted by `ObjectId` (neither 24 hexadecimal characters nor 12
characters) makes the handler throw before any storage access: no
storage operation is issued — but also no response (in particular no
field-keyed validation error) is produced. -/
theorem listRecipes_invalid_id_no_response (db : Db) (p : ListParams)
    (h : (∃ s, p.beans = some s ∧ s.data ≠ [] ∧
            ∃ part ∈ splitCh ',' s.data, mkObjectId (String.mk part) = none) ∨
         (∃ s, p.grinder = some s ∧ s.data ≠ [] ∧ mkObjectId s = none) ∨
         (∃ s, p.method = some s ∧ s.data ≠ [] ∧ mkObjectId s = none) ∨
         (∃ s, p.brewer = some s ∧ s.data ≠ [] ∧ mkObjectId s = none)) :
    listRecipes db p = (none, []) := by
  rcases h with ⟨s, hs, hne, part, hpart, hfail⟩ | ⟨s, hs, hne, hfail⟩ |
    ⟨s, hs, hne, hfail⟩ | ⟨s, hs, hne, hfail⟩
  · have hb : beansCrit p.beans = none := by
      simp [beansCrit, hs, hne,
        mapOption_eq_none_of_mem (f := fun part => mkObjectId (String.mk part))
          hpart hfail]
    simp [listRecipes, prepare, hb]
  · have hg : idCrit p.grinder = none := by simp [idCrit, hs, hne, hfail]
    cases hb : beansCrit p.beans <;> simp [listRecipes, prepare, hb, hg]
  · have hm : idCrit p.method = none := by simp [idCrit, hs, hne, hfail]
    cases hb : beansCrit p.beans <;> cases hg : idCrit p.grinder <;>
      simp [listRecipes, prepare, hb, hg, hm]
  · have hbw : idCrit p.brewer = none := by simp [idCrit, hs, hne, hfail]
    cases hb : beansCrit p.beans <;> cases hg : idCrit p.grinder <;>
      cases hm : idCrit p.method <;>
      simp [listRecipes, prepare, hb, hg, hm, hbw]

/-- Witness for the amended C9 at a concrete malformed `method` id. -/
theorem listRecipes_invalid_id_no_response_witness :
    listRecipes emptyDb { method := some "bad" } = (none, []) :=
  listRecipes_invalid_id_no_response emptyDb { method := some "bad" }
    (Or.inr (Or.inr (Or.inl ⟨"bad", rfl, by decide, by decide⟩)))

/-- C5 (counterexample): for a user with no favorites record, adding a
well-formed recipe id whose recipe does not exist is *not* rejected — the
code creates the record without any recipe-existence check on that
path. -/
theorem addFavorite_no_record_counterexample :
    (addFavorite emptyDb "alice@example.com"
        (some "0123456789abcdef01234567") "f0f0f0f0f0f0f0f0f0f0f0f0").1 =
      some (ApiResp.success 201 ()) ∧
    findRecipe emptyDb "0123456789abcdef01234567" = none ∧
    runEvents emptyDb
        (addFavorite emptyDb "alice@example.com"
          (some "0123456789abcdef01234567") "f0f0f0f0f0f0f0f0f0f0f0f0").2 =
      Db.mk [] [Favorite.mk "f0f0f0f0f0f0f0f0f0f0f0f0" "alice@example.com"
        ["0123456789abcdef01234567"]] [] [] [] [] := by
  decide

/-- C5 (amended): favorites add is not idempotent — a second add of an
already-favorited id is rejected with the field-keyed 400
"already in favorites collection" error, leaving the database unchanged;
an add for a user with no favorites record creates a record whose list is
the singleton of the id (with no recipe-existence check on this path);
and an add of a well-formed id whose recipe does not exist is rejected
with a field-keyed error only when the user already has a favorites
record. -/
theorem addFavorite_contract :
    (∀ (db : Db) (email rid : String) (freshId : Id) (fav : Favorite)
       (rec : Recipe),
      isValidObjectId rid = true → validateEmail email = true →
      findFavByEmail db email = some fav →
      findRecipe db (normId rid) = some rec →
      normId rid ∈ fav.coffee_recipes →
      (addFavorite db email (some rid) freshId).1 =
        some (ApiResp.fail
          [("recipeId", "Recipe ID is already in favorites collection")]) ∧
      runEvents db (addFavorite db email (some rid) freshId).2 = db) ∧
    (∀ (db : Db) (email rid : String) (freshId : Id),
      isValidObjectId rid = true → validateEmail email = true →
      findFavByEmail db email = none →
      (addFavorite db email (some rid) freshId).1 =
        some (ApiResp.success 201 ()) ∧
      runEvents db (addFavorite db email (some rid) freshId).2 =
        { db with favorites :=
            db.favorites ++ [Favorite.mk freshId email [normId rid]] }) ∧
    (∀ (db : Db) (email rid : String) (freshId : Id) (fav : Favorite),
      isValidObjectId rid = true → validateEmail email = true →
      findFavByEmail db email = some fav →
      findRecipe db (normId rid) = none →
      (addFavorite db email (some rid) freshId).1 =
        some (ApiResp.fail [("recipeId", "Recipe does not exist")]) ∧
      runEvents db (addFavorite db email (some rid) freshId).2 = db) := by
  refine ⟨?_, ?_, ?_⟩
  · intro db email rid freshId fav rec hid hev hfav hrec hmem
    have hne := validateEmail_ne_nil hev
    have hfavmem : fav ∈ db.favorites := List.mem_of_find?_eq_some hfav
    have hsome : (db.favorites.find?
        (fun f => decide (f.fid = fav.fid) &&
          decide (normId rid ∈ f.coffee_recipes))).isSome := by
      refine List.find?_isSome.mpr ⟨fav, hfavmem, ?_⟩
      simp [hmem]
    obtain ⟨f', hf'⟩ := Option.isSome_iff_exists.mp hsome
    simp [addFavorite, hid, hev, hne, hfav, hrec, hf',
      runEvents, applyDbEvent]
  · intro db email rid freshId hid hev hfav
    have hne := validateEmail_ne_nil hev
    simp [addFavorite, hid, hev, hne, hfav, runEvents, applyDbEvent]
  · intro db email rid freshId fav hid hev hfav hrec
    have hne := validateEmail_ne_nil hev
    simp [addFavorite, hid, hev, hne, hfav, hrec, runEvents, applyDbEvent]

/-- Witness for the amended C5 at a concrete database: duplicate add
rejected with the database unchanged, and first-time add creating the
singleton record. -/
theorem addFavorite_contract_witness :
    ((addFavorite favDb "alice@example.com"
        (some "aaaaaaaaaaaaaaaaaaaaaaaa") "f1f1f1f1f1f1f1f1f1f1f1f1").1 =
      some (ApiResp.fail
        [("recipeId", "Recipe ID is already in favorites collection")]) ∧
     runEvents favDb
        (addFavorite favDb "alice@example.com"
          (some "aaaaaaaaaaaaaaaaaaaaaaaa") "f1f1f1f1f1f1f1f1f1f1f1f1").2 =
       favDb) ∧
    ((addFavorite emptyDb "bob@example.com"
        (some "aaaaaaaaaaaaaaaaaaaaaaaa") "f2f2f2f2f2f2f2f2f2f2f2f2").1 =
      some (ApiResp.success 201 ()) ∧
     runEvents emptyDb
        (addFavorite emptyDb "bob@example.com"
          (some "aaaaaaaaaaaaaaaaaaaaaaaa") "f2f2f2f2f2f2f2f2f2f2f2f2").2 =
       { emptyDb with favorites :=
           emptyDb.favorites ++ [Favorite.mk "f2f2f2f2f2f2f2f2f2f2f2f2"
             "bob@example.com" ["aaaaaaaaaaaaaaaaaaaaaaaa"]] }) :=
  ⟨addFavorite_contract.1 favDb "alice@example.com"
     "aaaaaaaaaaaaaaaaaaaaaaaa" "f1f1f1f1f1f1f1f1f1f1f1f1" sampleFavorite
     ratedRecipe (by decide) (by decide) (by decide) (by decide) (by decide),
   addFavorite_contract.2.1 emptyDb "bob@example.com"
     "aaaaaaaaaaaaaaaaaaaaaaaa" "f2f2f2f2f2f2f2f2f2f2f2f2"
     (by decide) (by decide) (by decide)⟩

/-- C1 (counterexample): appending a rating of 1 to 19 reviews whose
ratings sum to 28 gives the exact mean 29/20 = 1.45; round half away
from zero would store 1.5, but the code divides in binary64 — where
29/20 rounds to slightly below 1.45 — and `toFixed(1)` therefore stores
1.4. -/
theorem review_average_rounding_counterexample :
    (findRecipe
        (runEvents ratedDb
          (postReview ratedDb "aaaaaaaaaaaaaaaaaaaaaaaa" sampleReviewBody
            100 "abcdefabcdefabcdefabcdef" 3).2)
        "aaaaaaaaaaaaaaaaaaaaaaaa").map Recipe.average_rating =
      some (mkRat 14 10) ∧
    specNewAverage (nineteenReviews.map Review.rating) 1 = mkRat 15 10 ∧
    ¬ (mkRat 14 10 : ℚ) = mkRat 15 10 := by
  refine ⟨by decide, by decide, by decide⟩

/-- C1 (amended): a successful review append stores as the new average
the binary64 quotient of (sum of existing ratings + new rating) by
(count + 1), rounded to one decimal by `toFixed(1)` (nearest tenth, ties
upward — which agrees with round half away from zero whenever the exact
quotient is representable, but can differ at non-representable ties such
as 1.45); for a recipe with no existing reviews the stored average equals
the new rating exactly. -/
theorem postReview_average_binary64
    (db : Db) (recipeId : String) (rec : Recipe) (b : ReviewBody)
    (now : Nat) (newId : Id) (salt : Nat) (e : String) (rv : Int)
    (hid : isValidObjectId recipeId = true)
    (hrec : findRecipe db (normId recipeId) = some rec)
    (ht : 5 ≤ b.title.data.length) (hc : 5 ≤ b.content.data.length)
    (hrv : jsParseInt b.rating = some rv) (h1 : 1 ≤ rv) (h5 : rv ≤ 5)
    (hu : 5 ≤ b.username.data.length)
    (he : b.email = some e) (hev : validateEmail e = true) :
    findRecipe
        (runEvents db (postReview db recipeId b now newId salt).2)
        (normId recipeId) =
      some { rec with
        reviews := rec.reviews ++
          [Review.mk newId now b.title b.content rv b.username
            (bcryptHash salt e)],
        average_rating :=
          mkRat (jsAvgTenths ((rec.reviews.map Review.rating).sum + rv)
            (rec.reviews.length + 1)) 10 } ∧
    (rec.reviews = [] →
      mkRat (jsAvgTenths ((rec.reviews.map Review.rating).sum + rv)
          (rec.reviews.length + 1)) 10 = (rv : ℚ)) := by
  have ht1 : b.title.data ≠ [] := by
    intro hnil; rw [hnil] at ht; simp at ht
  have ht2 : ¬ b.title.data.length < 5 := by omega
  have hc1 : b.content.data ≠ [] := by
    intro hnil; rw [hnil] at hc; simp at hc
  have hc2 : ¬ b.content.data.length < 5 := by omega
  have hu1 : b.username.data ≠ [] := by
    intro hnil; rw [hnil] at hu; simp at hu
  have hu2 : ¬ b.username.data.length < 5 := by omega
  have hrv0 : rv ≠ 0 := by omega
  have hrv1 : ¬ rv < 1 := by omega
  have hrv5 : ¬ 5 < rv := by omega
  have hrec' : List.find? (fun r => decide (r.rid = normId recipeId))
      db.recipes = some rec := by
    simpa [findRecipe] using hrec
  have htl : 5 ≤ b.title.length := ht
  have hcl : 5 ≤ b.content.length := hc
  have hul : 5 ≤ b.username.length := hu
  constructor
  · have hupd := find?_updateFirstBy
      (fun r => decide (r.rid = normId recipeId))
      (fun r => { r with
        reviews := r.reviews ++
          [Review.mk newId now b.title b.content rv b.username
            (bcryptHash salt e)],
        average_rating :=
          mkRat (jsAvgTenths ((rec.reviews.map Review.rating).sum + rv)
            (rec.reviews.length + 1)) 10 })
      db.recipes (by intro a ha; simpa using ha)
    simp only [postReview, hid, ht1, ht2, hc1, hc2, hu1, hu2, hrv, hrv0,
      hrv1, hrv5, he, hev, computeAverageRating, findRecipe, hrec',
      foldl_add_rating, runEvents, applyDbEvent]
    simp [htl, hcl, hul, hrv0, h1, h5, applyDbEvent]
    rw [hupd, hrec']
    simp
  · intro h0
    simp only [h0, List.map_nil, List.sum_nil, List.length_nil, zero_add]
    interval_cases rv <;> simp <;> decide

/-- Witness for the amended C1: the first review (rating 1) of a recipe
with no reviews stores average exactly 1. -/
theorem postReview_average_binary64_witness :
    findRecipe
        (runEvents freshDb
          (postReview freshDb "dddddddddddddddddddddddd" sampleReviewBody
            100 "abcdefabcdefabcdefabcdef" 3).2)
        "dddddddddddddddddddddddd" =
      some { freshRecipe with
        reviews := [Review.mk "abcdefabcdefabcdefabcdef" 100 "Solid brew"
          "Really enjoyed it" 1 "drinker"
          (bcryptHash 3 "alice@example.com")],
        average_rating := mkRat (jsAvgTenths 1 1) 10 } ∧
    mkRat (jsAvgTenths 1 1) 10 = ((1 : Int) : ℚ) := by
  have h := postReview_average_binary64 freshDb "dddddddddddddddddddddddd"
    freshRecipe sampleReviewBody 100 "abcdefabcdefabcdefabcdef" 3
    "alice@example.com" 1 (by decide) (by decide) (by decide) (by decide)
    (by decide) (by decide) (by decide) (by decide) rfl (by decide)
  exact ⟨h.1, h.2 (by decide)⟩

/-- C8: on the successful review-append path the handler issues exactly
one write — a single `updateOne` carrying both the `$push` of the review
and the `$set` of the new average — so every database state reachable
while the handler's storage operations execute either still holds the
original recipe document unchanged or holds the document with the review
appended *and* the average updated; the final state holds both. -/
theorem postReview_atomic_update
    (db : Db) (recipeId : String) (rec : Recipe) (b : ReviewBody)
    (now : Nat) (newId : Id) (salt : Nat) (e : String) (rv : Int)
    (hid : isValidObjectId recipeId = true)
    (hrec : findRecipe db (normId recipeId) = some rec)
    (ht : 5 ≤ b.title.data.length) (hc : 5 ≤ b.content.data.length)
    (hrv : jsParseInt b.rating = some rv) (h1 : 1 ≤ rv) (h5 : rv ≤ 5)
    (hu : 5 ≤ b.username.data.length)
    (he : b.email = some e) (hev : validateEmail e = true) :
    (∀ s ∈ traceStates db (postReview db recipeId b now newId salt).2,
      findRecipe s (normId recipeId) = some rec ∨
      findRecipe s (normId recipeId) =
        some { rec with
          reviews := rec.reviews ++
            [Review.mk newId now b.title b.content rv b.username
              (bcryptHash salt e)],
          average_rating :=
            mkRat (jsAvgTenths ((rec.reviews.map Review.rating).sum + rv)
              (rec.reviews.length + 1)) 10 }) ∧
    findRecipe
        (runEvents db (postReview db recipeId b now newId salt).2)
        (normId recipeId) =
      some { rec with
        reviews := rec.reviews ++
          [Review.mk newId now b.title b.content rv b.username
            (bcryptHash salt e)],
        average_rating :=
          mkRat (jsAvgTenths ((rec.reviews.map Review.rating).sum + rv)
            (rec.reviews.length + 1)) 10 } := by
  have ht1 : b.title.data ≠ [] := by
    intro hnil; rw [hnil] at ht; simp at ht
  have ht2 : ¬ b.title.data.length < 5 := by omega
  have hc1 : b.content.data ≠ [] := by
    intro hnil; rw [hnil] at hc; simp at hc
  have hc2 : ¬ b.content.data.length < 5 := by omega
  have hu1 : b.username.data ≠ [] := by
    intro hnil; rw [hnil] at hu; simp at hu
  have hu2 : ¬ b.username.data.length < 5 := by omega
  have hrv0 : rv ≠ 0 := by omega
  have hrv1 : ¬ rv < 1 := by omega
  have hrv5 : ¬ 5 < rv := by omega
  have hrec' : List.find? (fun r => decide (r.rid = normId recipeId))
      db.recipes = some rec := by
    simpa [findRecipe] using hrec
  have htl : 5 ≤ b.title.length := ht
  have hcl : 5 ≤ b.content.length := hc
  have hul : 5 ≤ b.username.length := hu
  have hout : postReview db recipeId b now newId salt =
      (some (ApiResp.success 201 ()),
       [DbEvent.findRecipeRatings (normId recipeId),
        DbEvent.pushReviewSetAvg (normId recipeId)
          (Review.mk newId now b.title b.content rv b.username
            (bcryptHash salt e))
          (mkRat (jsAvgTenths ((rec.reviews.map Review.rating).sum + rv)
            (rec.reviews.length + 1)) 10)]) := by
    simp only [postReview, hid, ht1, ht2, hc1, hc2, hu1, hu2, hrv, hrv0,
      hrv1, hrv5, he, hev, computeAverageRating, findRecipe, hrec',
      foldl_add_rating]
    simp [htl, hcl, hul, hrv0, h1, h5]
  have hupd := find?_updateFirstBy
    (fun r => decide (r.rid = normId recipeId))
    (fun r => { r with
      reviews := r.reviews ++
        [Review.mk newId now b.title b.content rv b.username
          (bcryptHash salt e)],
      average_rating :=
        mkRat (jsAvgTenths ((rec.reviews.map Review.rating).sum + rv)
          (rec.reviews.length + 1)) 10 })
    db.recipes (by intro a ha; simpa using ha)
  rw [hout]
  constructor
  · intro s hs
    simp [traceStates, applyDbEvent] at hs
    rcases hs with rfl | rfl
    · exact Or.inl hrec
    · refine Or.inr ?_
      simp only [findRecipe]
      rw [hupd, hrec']
      rfl
  · simp only [runEvents, List.foldl, applyDbEvent, findRecipe]
    rw [hupd, hrec']
    rfl

/-- Witness for C8 at a concrete database: the three reachable states of
the review append on the 19-review recipe, original twice and then the
fully updated document. -/
theorem postReview_atomic_update_witness :
    findRecipe
        (runEvents ratedDb
          (postReview ratedDb "aaaaaaaaaaaaaaaaaaaaaaaa" sampleReviewBody
            100 "abcdefabcdefabcdefabcdef" 3).2)
        "aaaaaaaaaaaaaaaaaaaaaaaa" =
      some { ratedRecipe with
        reviews := ratedRecipe.reviews ++
          [Review.mk "abcdefabcdefabcdefabcdef" 100 "Solid brew"
            "Really enjoyed it" 1 "drinker"
            (bcryptHash 3 "alice@example.com")],
        average_rating :=
          mkRat (jsAvgTenths ((ratedRecipe.reviews.map Review.rating).sum + 1)
            (ratedRecipe.reviews.length + 1)) 10 } :=
  (postReview_atomic_update ratedDb "aaaaaaaaaaaaaaaaaaaaaaaa" ratedRecipe
    sampleReviewBody 100 "abcdefabcdefabcdefabcdef" 3 "alice@example.com" 1
    (by decide) (by decide) (by decide) (by decide) (by decide) (by decide)
    (by decide) (by decide) rfl (by decide)).2

/-- C3 (counterexample): with 23 matching recipes and a requested limit
of 5, the listing reports `pages = 3` — the handler always divides the
count by the constant 10, not by the requested limit, so `ceil(23/5) = 5`
is not what is returned. -/
theorem listRecipes_pages_ignore_limit_counterexample :
    listCountOf (listRecipes sampleDb23 { limit := some "5" }) = some 23 ∧
    listPagesOf (listRecipes sampleDb23 { limit := some "5" }) = some 3 ∧
    ¬ (3 : Nat) = (23 + 5 - 1) / 5 := by
  refine ⟨by decide, by decide, by decide⟩

/-- C3 (amended): the listing's `pages` field is `ceil(count / 10)`
regardless of the requested limit or page (the limit only affects the
returned slice); concretely, with 23 matching recipes and `limit=10`,
`pages = 3`, page 3 returns exactly 3 records and page 4 returns an
empty result list with a success status; the favorites listing
paginates with fixed page size 10 (its handler reads no limit parameter
at all), reporting `ceil(count / 10)` pages. -/
theorem pagination_pages_and_slicing :
    (∀ (db : Db) (p : ListParams) (o : Prepared) (L : Int) (P : ℚ)
       (skip : Nat),
      prepare p = some o → o.errs = [] → o.limit = some L →
      o.page = some P → skipOf P L = some skip →
      listPagesOf (listRecipes db p) =
        some (((db.recipes.filter (recipeMatches o.crit)).length + 9) / 10)) ∧
    (listPagesOf (listRecipes sampleDb23 { limit := some "10" }) = some 3 ∧
     (listResultOf (listRecipes sampleDb23
        { limit := some "10", page := some "3" })).map List.length = some 3 ∧
     (listRecipes sampleDb23 { limit := some "10", page := some "4" }).1 =
       some (ApiResp.success 200 (ListData.mk [] 23 3))) ∧
    (∀ (db : Db) (email : String) (pg : Option String) (fav : Favorite)
       (recipes : List PopulatedRecipe),
      validateEmail email = true →
      findFavByEmail db email = some fav →
      (resolveFavRecipes db fav.coffee_recipes).1 = some recipes →
      favPagesOf (listFavorites db email pg) =
        some ((recipes.length + 9) / 10)) := by
  refine ⟨?_, ⟨by decide, by decide, by decide⟩, ?_⟩
  · intro db p o L P skip hprep herrs hlim hpage hskip
    simp [listRecipes, hprep, herrs, hlim, hpage, hskip, listPagesOf]
  · intro db email pg fav recipes hev hfav hres
    have hne := validateEmail_ne_nil hev
    simp [listFavorites, hev, hne, hfav, hres, favPagesOf]

/-- Witness for the amended C3: the general pages formula applied to the
23-recipe database with the default parameters, and the favorites pages
formula at a concrete single-favorite record. -/
theorem pagination_pages_and_slicing_witness :
    listPagesOf (listRecipes sampleDb23 { limit := some "10" }) =
      some ((23 + 9) / 10) ∧
    favPagesOf (listFavorites favDb "alice@example.com" none) =
      some ((1 + 9) / 10) := by
  constructor
  · have h := pagination_pages_and_slicing.1 sampleDb23
      { limit := some "10" }
      (Prepared.mk (Criteria.mk none none none none none none) []
        (some SortKey.byDate) (some 10) (some 1))
      10 1 0 (by decide) rfl rfl rfl (by decide)
    rw [h]
    decide
  · exact pagination_pages_and_slicing.2.2 favDb "alice@example.com" none
      sampleFavorite [(populateRecipeFields favDb ratedRecipe).1]
      (by decide) (by decide) (by decide)

theorem mem_jsLimitTake {x : α} {L : Int} {l : List α}
    (h : x ∈ jsLimitTake L l) : x ∈ l := by
  by_cases h0 : L = 0
  · simpa [jsLimitTake, h0] using h
  · rw [jsLimitTake, if_neg h0] at h
    exact List.mem_of_mem_take h

def oneDb : Db := ⟨[sampleRecipe 0], [], [], [], [], []⟩

/-- C10: every recipe in a listing response is the populated *projection*
of a stored recipe — a document shape with no `user.email` and no
`reviews` (the query projects both out), only the username surviving
under `user` — whereas the single-recipe endpoint returns the populated
full document, whose `user` (hashed owner email included) and `reviews`
are exactly those stored. -/
theorem listing_projection_and_detail_exposure :
    (∀ (db : Db) (p : ListParams) (d : ListData) (evs : List DbEvent),
      listRecipes db p = (some (ApiResp.success 200 d), evs) →
      ∀ x ∈ d.result, ∃ r, r ∈ db.recipes ∧
        x = (populateProjFields db (projectRecipe r)).1 ∧
        x.user = ProjUser.mk r.user.username) ∧
    (∀ (db : Db) (recipeId : String) (rec : Recipe),
      isValidObjectId recipeId = true →
      findRecipe db (normId recipeId) = some rec →
      (getRecipeByIdH db recipeId).1 =
        some (ApiResp.success 200 (populateRecipeFields db rec).1) ∧
      (populateRecipeFields db rec).1.user = rec.user ∧
      (populateRecipeFields db rec).1.reviews = rec.reviews) := by
  constructor
  · intro db p d evs hout x hx
    cases hprep : prepare p with
    | none => simp [listRecipes, hprep] at hout
    | some o =>
      simp only [listRecipes, hprep] at hout
      by_cases herrs : o.errs = []
      · rw [if_pos herrs] at hout
        cases holim : o.limit with
        | none => simp [holim] at hout
        | some L =>
          cases hpage : o.page with
          | none => simp [holim, hpage] at hout
          | some P =>
            cases hskip : skipOf P L with
            | none => simp [holim, hpage, hskip] at hout
            | some skip =>
              simp only [holim, hpage, hskip] at hout
              have hd :
                  d = ListData.mk
                    ((((jsLimitTake L
                        ((sortOrd (sortKeyLe (o.sortKey.getD SortKey.byDate))
                          (db.recipes.filter (recipeMatches o.crit))).drop
                          skip)).map projectRecipe).map
                      (populateProjFields db)).map Prod.fst)
                    (db.recipes.filter (recipeMatches o.crit)).length
                    (((db.recipes.filter (recipeMatches o.crit)).length + 9) / 10) := by
                have := congrArg Prod.fst hout
                simp only at this
                injection this with h1
                injection h1 with _ h2
                exact h2.symm
              rw [hd] at hx
              rw [List.map_map, List.map_map] at hx
              obtain ⟨r0, hr0, heq⟩ := List.mem_map.mp hx
              refine ⟨r0, ?_, heq.symm, ?_⟩
              · exact (List.mem_filter.mp
                  (mem_sortOrd.mp
                    (List.mem_of_mem_drop (mem_jsLimitTake hr0)))).1
              · rw [← heq]; rfl
      · rw [if_neg herrs] at hout
        simp at hout
  · intro db recipeId rec hid hrec
    refine ⟨?_, rfl, rfl⟩
    simp [getRecipeByIdH, hid, hrec]

/-- Witness for C10: the one listing result of a one-recipe database is
the populated projection of that recipe (username kept, email and
reviews absent by shape), and the single-recipe endpoint returns the
populated full document with the stored user and reviews. -/
theorem listing_projection_and_detail_exposure_witness :
    (∃ r, r ∈ oneDb.recipes ∧
      (populateProjFields oneDb (projectRecipe (sampleRecipe 0))).1 =
        (populateProjFields oneDb (projectRecipe r)).1 ∧
      (populateProjFields oneDb (projectRecipe (sampleRecipe 0))).1.user =
        ProjUser.mk r.user.username) ∧
    (getRecipeByIdH ratedDb "aaaaaaaaaaaaaaaaaaaaaaaa").1 =
      some (ApiResp.success 200 (populateRecipeFields ratedDb ratedRecipe).1) ∧
    (populateRecipeFields ratedDb ratedRecipe).1.user = ratedRecipe.user := by
  have hb := listing_projection_and_detail_exposure.2 ratedDb
    "aaaaaaaaaaaaaaaaaaaaaaaa" ratedRecipe (by decide) (by decide)
  refine ⟨?_, hb.1, hb.2.1⟩
  exact listing_projection_and_detail_exposure.1 oneDb {}
    (ListData.mk [(populateProjFields oneDb (projectRecipe (sampleRecipe 0))).1] 1 1)
    [DbEvent.countRecipes, DbEvent.queryRecipes,
     DbEvent.findBrewer "cccccccccccccccccccccccc",
     DbEvent.findMethod "bbbbbbbbbbbbbbbbbbbbbbbb"]
    (by decide)
    (populateProjFields oneDb (projectRecipe (sampleRecipe 0))).1
    (by decide)

end CoffeeTalk
